import Mathlib

/-!
Verification development for the qr-joel repository.

The repository is a small TypeScript service (src/server.ts plus the
JORFSearch client utilities and an analytics wrapper) that resolves a
follow target (person, organisation, or role tag) against the external
JORFSearch index and renders the result as a QR code.

Shallow embedding conventions used throughout this file:
- JavaScript strings handled by the JORFSearch client and the name
  normalizer are modelled as lists of Unicode code points (JStr, a list
  of natural numbers), so that the character-level operations of
  cleanPeopleNameJORFURL (case mapping, combining-mark removal,
  capitalisation) can be stated exactly.
- Strings handled by the HTTP route of src/server.ts are modelled as
  Lean strings; String.splitOn " " agrees with the JavaScript
  String.prototype.split(" ") semantics used there, including the
  behaviour on empty strings and on consecutive separators.
- Network effects are modelled by passing the transport responses in as
  explicit oracle arguments; an Except value distinguishes a thrown
  transport failure (network error or non-2xx status, which axios
  raises as an exception) from a delivered body.
- The case mappings jsLowerChar and jsUpperChar model the JavaScript
  toLowerCase and toUpperCase on the code points relevant to this
  repository: ASCII, the Latin-1 letter block, the sharp s expansion,
  the y-with-diaeresis pair and the dotted capital I expansion; all
  other code points are mapped to themselves.
-/

set_option autoImplicit false

/-- A JavaScript string modelled as its list of Unicode code points. -/
abbrev JStr := List Nat

/-- Convert a Lean string literal to its list of code points. -/
def jstr (s : String) : JStr := s.data.map Char.toNat

/-- Whitespace class used both by String.prototype.trim and by the
regular-expression class backslash-s in JavaScript. -/
def isJsWs (c : Nat) : Bool :=
  if c = 0x9 ∨ c = 0xA ∨ c = 0xB ∨ c = 0xC ∨ c = 0xD ∨ c = 0x20 ∨ c = 0xA0 ∨
      c = 0x1680 ∨ (0x2000 ≤ c ∧ c ≤ 0x200A) ∨ c = 0x2028 ∨ c = 0x2029 ∨
      c = 0x202F ∨ c = 0x205F ∨ c = 0x3000 ∨ c = 0xFEFF then true else false

/-- Model of the JavaScript toLowerCase mapping for a single code point
(identity outside the modelled subset described in the file header). -/
def jsLowerChar (c : Nat) : List Nat :=
  if 65 ≤ c ∧ c ≤ 90 then [c + 32]
  else if 0xC0 ≤ c ∧ c ≤ 0xDE ∧ c ≠ 0xD7 then [c + 32]
  else if c = 0x130 then [0x69, 0x307]
  else [c]

/-- Model of the JavaScript toUpperCase mapping for a single code point
(identity outside the modelled subset described in the file header). -/
def jsUpperChar (c : Nat) : List Nat :=
  if 97 ≤ c ∧ c ≤ 122 then [c - 32]
  else if c = 0xDF then [83, 83]
  else if 0xE0 ≤ c ∧ c ≤ 0xFE ∧ c ≠ 0xF7 then [c - 32]
  else if c = 0xFF then [0x178]
  else [c]

/-- JavaScript toLowerCase applied to a whole string. -/
def jsToLowerCase : JStr → JStr
  | [] => []
  | c :: r => jsLowerChar c ++ jsToLowerCase r

/-- Drop trailing JavaScript whitespace. -/
def trimEnd : JStr → JStr
  | [] => []
  | c :: r => if trimEnd r = [] ∧ isJsWs c then [] else c :: trimEnd r

/-- Model of String.prototype.trim. -/
def jsTrim (s : JStr) : JStr := trimEnd (s.dropWhile isJsWs)

/-- Code points matched by the Unicode letter class of the capitalising
regular expression in cleanPeopleNameJORFURL, restricted to the modelled
subset (ASCII letters, Latin-1 letters, Latin Extended-A). -/
def isJsLetter (c : Nat) : Bool :=
  if (65 ≤ c ∧ c ≤ 90) ∨ (97 ≤ c ∧ c ≤ 122) ∨
      (0xC0 ≤ c ∧ c ≤ 0xFF ∧ c ≠ 0xD7 ∧ c ≠ 0xF7) ∨ (0x100 ≤ c ∧ c ≤ 0x17F)
  then true else false

/-- Delimiters after which the capitalising regular expression of
cleanPeopleNameJORFURL upper-cases the following letter: whitespace,
hyphen-minus, apostrophe. -/
def isCapDelim (c : Nat) : Bool := isJsWs c || c == 45 || c == 39

/-- Model of the replacement pass that upper-cases every letter at the
start of the string or right after a whitespace, hyphen or apostrophe
(step 3 of cleanPeopleNameJORFURL, src/JORFSearch.utils.ts line 124).
The boolean argument records whether the next letter is at a
capitalisation position. -/
def capitalizeJORF : Bool → JStr → JStr
  | _, [] => []
  | atCap, c :: r =>
    (if atCap && isJsLetter c then jsUpperChar c else [c]) ++
      capitalizeJORF (isCapDelim c) r

/-- Combining diacritical marks, the range removed by step 2 of
cleanPeopleNameJORFURL (src/JORFSearch.utils.ts line 120). -/
def isCombiningMark (c : Nat) : Bool :=
  if 0x300 ≤ c ∧ c ≤ 0x36F then true else false

/-- Step 2 of cleanPeopleNameJORFURL: remove combining marks. -/
def removeCombining (s : JStr) : JStr := s.filter (fun c => !isCombiningMark c)

/-- Step 4 of cleanPeopleNameJORFURL: remove parenthesis characters. -/
def removeParens (s : JStr) : JStr := s.filter (fun c => !(c == 40 || c == 41))

/-- Embedding of cleanPeopleNameJORFURL (src/JORFSearch.utils.ts lines
113 to 129): empty-string guard, then trim and lower-case, then removal
of combining marks, then capitalisation after start, whitespace, hyphen
or apostrophe, then removal of parentheses.  Note that the source never
applies a Unicode decomposition before removing the combining-mark
range. -/
def cleanPeopleNameJORFURL (input : JStr) : JStr :=
  if input = [] then []
  else
    let out1 := jsToLowerCase (jsTrim input)
    let out2 := removeCombining out1
    let out3 := capitalizeJORF true out2
    removeParens out3

/-- Helper for jsSplitSpace, working on the character list. -/
def jsSplitSpaceAux : List Char → List (List Char)
  | [] => [[]]
  | c :: r =>
    let rest := jsSplitSpaceAux r
    if c = ' ' then [] :: rest
    else
      match rest with
      | h :: t => (c :: h) :: t
      | [] => [[c]]

/-- Model of the JavaScript expression s.split(" "): split on every
single space character, keeping empty fragments, so that the empty
string yields one empty fragment. -/
def jsSplitSpace (s : String) : List String :=
  (jsSplitSpaceAux s.data).map (fun l => String.mk l)

/-! ### The encodeURI model -/

/-- UTF-8 encoding of one code point, used by percent-escaping. -/
def utf8Bytes (c : Nat) : List Nat :=
  if c < 0x80 then [c]
  else if c < 0x800 then [0xC0 + c / 0x40, 0x80 + c % 0x40]
  else if c < 0x10000 then
    [0xE0 + c / 0x1000, 0x80 + (c / 0x40) % 0x40, 0x80 + c % 0x40]
  else
    [0xF0 + c / 0x40000, 0x80 + (c / 0x1000) % 0x40,
      0x80 + (c / 0x40) % 0x40, 0x80 + c % 0x40]

/-- Upper-case hexadecimal digit as a code point. -/
def hexDigit (n : Nat) : Nat := if n < 10 then 48 + n else 55 + n

/-- Percent-escape one code point as UTF-8 bytes. -/
def pctEncode (c : Nat) : List Nat :=
  (utf8Bytes c).foldr (fun b acc => 37 :: hexDigit (b / 16) :: hexDigit (b % 16) :: acc) []

/-- Code points left unescaped by the JavaScript encodeURI function:
alphanumerics, mark characters, URI reserved characters and the hash. -/
def isEncodeURIUnescaped (c : Nat) : Bool :=
  if (48 ≤ c ∧ c ≤ 57) ∨ (65 ≤ c ∧ c ≤ 90) ∨ (97 ≤ c ∧ c ≤ 122) ∨
      c = 45 ∨ c = 95 ∨ c = 46 ∨ c = 33 ∨ c = 126 ∨ c = 42 ∨ c = 39 ∨
      c = 40 ∨ c = 41 ∨ c = 59 ∨ c = 47 ∨ c = 63 ∨ c = 58 ∨ c = 64 ∨
      c = 38 ∨ c = 61 ∨ c = 43 ∨ c = 36 ∨ c = 44 ∨ c = 35
  then true else false

/-- Model of the JavaScript encodeURI function. -/
def encodeURI : JStr → JStr
  | [] => []
  | c :: r => (if isEncodeURIUnescaped c then [c] else pctEncode c) ++ encodeURI r

/-! ### The JORFSearch client (src/JORFSearch.utils.ts) -/

/-- Raw item of a JORFSearch response; only the two name fields are
modelled, any further fields of the raw JSON objects are irrelevant to
cleanJORFItems and are omitted. -/
structure JORFSearchItemRaw where
  prenom : Option JStr
  nom : Option JStr
deriving DecidableEq

/-- Item kept after normalisation: both name fields defined. -/
structure JORFSearchItem where
  prenom : JStr
  nom : JStr
deriving DecidableEq

/-- Body shapes of a JORFSearch answer: JSON null, a bare string, or an
array of raw items (the type JORFSearchResponse of the source). -/
inductive JResponse where
  | null : JResponse
  | str : JStr → JResponse
  | items : List JORFSearchItemRaw → JResponse
deriving DecidableEq

/-- Transport oracle for callJORFSearchPeople: the body of the first
request (or a thrown transport failure), the resolved response location
exposed by the transport after server-side redirects, and the body of
any follow-up request as a function of the requested location. -/
structure Transport where
  first : Except Unit JResponse
  responseUrl : Option JStr
  second : JStr → Except Unit JResponse

/-- Embedding of cleanJORFItems (src/JORFSearch.utils.ts lines 148 to
154): keep a raw item exactly when both nom and prenom are defined;
emptiness of the fields is not inspected. -/
def cleanJORFItems (raw_items : List JORFSearchItemRaw) : List JORFSearchItem :=
  raw_items.foldl
    (fun tab raw_item =>
      match raw_item.nom, raw_item.prenom with
      | some n, some p => tab ++ [{ prenom := p, nom := n }]
      | _, _ => tab)
    []

/-- The query marker appended to every JORFSearch data request. -/
def formatJSONMarker : JStr := jstr "?format=JSON"

/-- First request location of callJORFSearchPeople, built from the
normalised name (src/JORFSearch.utils.ts lines 30 to 36). -/
def peopleQueryUrl (peopleName : JStr) : JStr :=
  encodeURI (jstr "https://jorfsearch.steinertriples.ch/name/" ++
    cleanPeopleNameJORFURL peopleName ++ formatJSONMarker)

/-- Follow-up location used after a redirect-marker answer: the resolved
location, with the JSON format marker appended only when not already
present (src/JORFSearch.utils.ts lines 49 to 51). -/
def followUpUrl (ru : JStr) : JStr :=
  if formatJSONMarker.isSuffixOf ru then ru else ru ++ formatJSONMarker

/-- Embedding of callJORFSearchPeople (src/JORFSearch.utils.ts lines 24
to 66).  The returned pair carries the result list and the list of
request locations issued, in order.  A thrown transport failure on
either request is caught by the surrounding try-catch and yields the
empty list; a null body yields the empty list; an item-array body is
normalised; a bare-string body triggers exactly one follow-up request
when the transport exposes a non-empty resolved location, and the
follow-up result is final: null or string bodies there yield the empty
list. -/
def callJORFSearchPeople (peopleName : JStr) (t : Transport) :
    List JORFSearchItem × List JStr :=
  let url1 := peopleQueryUrl peopleName
  match t.first with
  | .error _ => ([], [url1])
  | .ok .null => ([], [url1])
  | .ok (.items l) => (cleanJORFItems l, [url1])
  | .ok (.str _) =>
    match t.responseUrl with
    | none => ([], [url1])
    | some ru =>
      if ru = [] then ([], [url1])
      else
        let url2 := followUpUrl ru
        match t.second url2 with
        | .error _ => ([], [url1, url2])
        | .ok .null => ([], [url1, url2])
        | .ok (.str _) => ([], [url1, url2])
        | .ok (.items l) => (cleanJORFItems l, [url1, url2])

/-- Request location of callJORFSearchTag (src/JORFSearch.utils.ts lines
76 to 80), with the optional quoted tag value. -/
def tagQueryUrl (tag : JStr) (tagValue : Option JStr) : JStr :=
  encodeURI (jstr "https://jorfsearch.steinertriples.ch/tag/" ++ tag ++
    (match tagValue with
      | some v => [61, 34] ++ v ++ [34]
      | none => []) ++ formatJSONMarker)

/-- Embedding of callJORFSearchTag (src/JORFSearch.utils.ts lines 68 to
90): a thrown failure, a null body or a bare-string body all yield the
empty list; an item array is normalised.  The response body is passed in
as the transport oracle for the location tagQueryUrl. -/
def callJORFSearchTag (tag : JStr) (tagValue : Option JStr)
    (resp : Except Unit JResponse) : List JORFSearchItem :=
  match resp with
  | .error _ => []
  | .ok .null => []
  | .ok (.str _) => []
  | .ok (.items l) => cleanJORFItems l

/-- The upper-casing applied to the Wikidata identifier by
callJORFSearchOrganisation. -/
def jsToUpperCase : JStr → JStr
  | [] => []
  | c :: r => jsUpperChar c ++ jsToUpperCase r

/-- Request location of callJORFSearchOrganisation
(src/JORFSearch.utils.ts lines 98 to 101). -/
def organisationQueryUrl (wikiId : JStr) : JStr :=
  encodeURI (jstr "https://jorfsearch.steinertriples.ch/" ++
    jsToUpperCase wikiId ++ formatJSONMarker)

/-- Embedding of callJORFSearchOrganisation (src/JORFSearch.utils.ts
lines 92 to 111): same null/string/failure handling as the tag call. -/
def callJORFSearchOrganisation (wikiId : JStr)
    (resp : Except Unit JResponse) : List JORFSearchItem :=
  match resp with
  | .error _ => []
  | .ok .null => []
  | .ok (.str _) => []
  | .ok (.items l) => cleanJORFItems l

/-- Organisation identity returned by the name-resolution endpoint. -/
structure JOrgIdentity where
  name : JStr
  id : JStr
deriving DecidableEq

/-- Body shapes the organisation-name endpoint can deliver once parsed:
the declared array of identities, or the JSON null and bare-string
bodies that the JSON-parsing transport can also hand over, since it
raises neither on a JSON null nor on an unparseable body (the latter is
delivered as the raw string). -/
inductive OrgNameResponse where
  | null : OrgNameResponse
  | str : JStr → OrgNameResponse
  | identities : List JOrgIdentity → OrgNameResponse
deriving DecidableEq

/-- Embedding of callJORFSearchOrganisationName (src/JORFSearch.utils.ts
lines 131 to 146): the delivered body is returned unchanged, whatever
its shape, because the source returns r.data without inspecting it,
unlike the three data entry points; only a thrown transport failure is
caught and converted to the empty identity list. -/
def callJORFSearchOrganisationName (wikidataId : JStr)
    (resp : Except Unit OrgNameResponse) : OrgNameResponse :=
  match resp with
  | .error _ => .identities []
  | .ok b => b

/-! ### The HTTP route of src/server.ts -/

/-- Follow types of src/server.ts line 15. -/
inductive FollowType where
  | people : FollowType
  | function_tag : FollowType
  | organisation : FollowType
deriving DecidableEq

/-- Result item as consumed by the route (string fields, since the route
side of the embedding works on Lean strings). -/
structure PeopleItem where
  prenom : String
  nom : String
deriving DecidableEq

/-- Organisation identity as consumed by the route. -/
structure OrgIdentity where
  name : String
  id : String
deriving DecidableEq

/-- Query parameters of a request to the qrcode route. A parameter value
of none models an absent parameter (undefined in the source). -/
structure QrQuery where
  size : Option String
  frame : Option String
  verify : Option String
  name : Option String
  organisation : Option String
  function_tag : Option String
deriving DecidableEq

/-- Outcome of the qrcode route up to rendering: either a 400 response
with its error message, or success carrying the resolved follow type,
the follow label and the frame flag (the rendering stage itself, QR
rasterisation and compositing, is outside the embedded fragment and no
claim depends on it). -/
inductive QrOutcome where
  | badRequest : String → QrOutcome
  | ok : FollowType → String → Bool → QrOutcome
deriving DecidableEq

/-- Error message of src/server.ts line 67. -/
def sizeFrameMsg : String := "Cannot use fixed size and frame at the same tile."

/-- Error message of src/server.ts lines 83 and 275. -/
def nameFormatMsg : String :=
  "Name parameter must be composed two words minimum: firstname lastname."

/-- Error message of src/server.ts lines 94 and 106. -/
def exclusiveMsg : String :=
  "Parameters people, function_tag and organisations are exclusive."

/-- Error message of src/server.ts line 114. -/
def missingMsg : String :=
  "One of people, function_tag and organisations must be provided."

/-- Error message of src/server.ts lines 127, 140 and 156. -/
def noResultMsg : String := "No result found on JORFSearch."

/-- Error message of src/server.ts line 144. -/
def tooManyMsg : String := "Too many results found on JORFSearch."

/-- Truthiness of a JavaScript string, as used by the Boolean
conversion. -/
def jsBooleanString (s : String) : Bool := s ≠ ""

/-- Parsing of the verify query parameter (src/server.ts lines 70 to
72): false when absent, otherwise the Boolean conversion of the raw
string value, which is true for every non-empty value. -/
def qrVerifyFlag : Option String → Bool
  | none => false
  | some v => jsBooleanString v

/-- Parsing of the frame query parameter (src/server.ts lines 60 to 62):
enabled unless the parameter is present and equals the exact string
false. -/
def qrFrameFlag : Option String → Bool
  | none => true
  | some f => if f = "false" then false else true

/-- Embedding of the validation and resolution logic of the qrcode route
(src/server.ts lines 54 to 165).  The three JORFSearch results are
passed in as oracle arguments standing for the answers of
callJORFSearchPeople, callJORFSearchOrganisationName and
callJORFSearchTag on the given parameters.  Faithful to the source: the
size-with-frame guard runs first; the name check rejects a non-empty
name whose space-split has more than two fragments; the organisation
and tag parameters each fail when a follow type was already selected;
the organisation branch consults the index unconditionally, fails on
zero results, fails on more than one result and otherwise uses the
returned name as the label; the people branch consults the index only
when the verify flag is set and then uses the first item; the tag
branch consults the index only when the verify flag is set and keeps
the raw tag as the label. -/
def qrHandler (q : QrQuery) (peopleResult : List PeopleItem)
    (orgResult : List OrgIdentity) (tagResult : List PeopleItem) : QrOutcome :=
  let frameEnabled := qrFrameFlag q.frame
  if q.size ≠ none ∧ frameEnabled = true then .badRequest sizeFrameMsg
  else
    let verifyOnJORFSearch := qrVerifyFlag q.verify
    let name := q.name.getD ""
    if name.length > 0 ∧ (jsSplitSpace name).length > 2 then
      .badRequest nameFormatMsg
    else
      let ft1 : Option FollowType :=
        if name.length > 0 then some .people else none
      let organisation := q.organisation.getD ""
      if organisation.length > 0 ∧ ft1 ≠ none then .badRequest exclusiveMsg
      else
        let ft2 : Option FollowType :=
          if organisation.length > 0 then some .organisation else ft1
        let function_tag := q.function_tag.getD ""
        if function_tag.length > 0 ∧ ft2 ≠ none then .badRequest exclusiveMsg
        else
          let ft3 : Option FollowType :=
            if function_tag.length > 0 then some .function_tag else ft2
          match ft3 with
          | none => .badRequest missingMsg
          | some .people =>
            if verifyOnJORFSearch = true then
              match peopleResult with
              | [] => .badRequest noResultMsg
              | r :: _ => .ok .people (r.prenom ++ " " ++ r.nom) frameEnabled
            else .ok .people name frameEnabled
          | some .organisation =>
            match orgResult with
            | [] => .badRequest noResultMsg
            | [r] => .ok .organisation r.name frameEnabled
            | _ :: _ :: _ => .badRequest tooManyMsg
          | some .function_tag =>
            if verifyOnJORFSearch = true then
              match tagResult with
              | [] => .badRequest noResultMsg
              | _ :: _ => .ok .function_tag function_tag frameEnabled
            else .ok .function_tag function_tag frameEnabled

/-- The name validation of the choose route (src/server.ts lines 270 to
276): a supplied name is rejected with the two-words-minimum message
exactly when its space-split has fewer than two fragments. -/
def chooseNameRejected (name : String) : Bool :=
  (jsSplitSpace name).length < 2

/-- Truthiness of the followLabel value inside the qrcode route. -/
def jsTruthyLabel : Option String → Bool
  | none => false
  | some s => s ≠ ""

/-- The attribute slot of the text element of the framed-render overlay
(src/server.ts line 211): the interpolation of the conditional
expression that yields the word hidden when followLabel is truthy and
the empty string otherwise. -/
def textSvgHiddenAttr (followLabel : Option String) : String :=
  if jsTruthyLabel followLabel = true then "hidden" else ""

/-- The character content of the text element of the framed-render
overlay (src/server.ts line 212): followLabel with undefined replaced
by the empty string. -/
def textSvgTextContent (followLabel : Option String) : String :=
  match followLabel with
  | none => ""
  | some s => s

/-- The text element of the overlay SVG (src/server.ts lines 211 to
213), assembled from the fixed markup, the conditional hidden attribute
and the label content.  The surrounding static SVG markup and font data
are fixed byte content with no decision logic and are omitted. -/
def textSvgTextElement (followLabel : Option String) : String :=
  "<text x=\"50%\" y=\"70%\" dominant-baseline=\"middle\" text-anchor=\"middle\" class=\"label\" "
    ++ textSvgHiddenAttr followLabel ++ ">"
    ++ textSvgTextContent followLabel ++ "</text>"


/-! ### Helper lemmas -/

/-- Auxiliary characterisation of the foldl accumulator of
cleanJORFItems. -/
theorem cleanJORFItems_foldl_eq (l : List JORFSearchItemRaw)
    (acc : List JORFSearchItem) :
    l.foldl
        (fun tab raw_item =>
          match raw_item.nom, raw_item.prenom with
          | some n, some p => tab ++ [{ prenom := p, nom := n }]
          | _, _ => tab)
        acc
      = acc ++ l.filterMap (fun raw_item =>
          match raw_item.nom, raw_item.prenom with
          | some n, some p => some { prenom := p, nom := n }
          | _, _ => none) := by
  induction l generalizing acc with
  | nil => simp
  | cons hd tl ih =>
    rcases hnom : hd.nom with _ | n <;> rcases hpre : hd.prenom with _ | p <;>
      simp [List.foldl_cons, List.filterMap_cons, hnom, hpre, ih]

/-! ### Claim theorems -/

/-- C1: the qrcode route is claimed to reject a non-empty name with
fewer than two space-separated fragments and to accept names with two
or more.  The code of src/server.ts line 80 tests split-length greater
than two, so the single-fragment name Dupont is accepted (with and
without verification) and a three-fragment name is rejected with the
two-words-minimum message, while the choose route (line 272) performs
the check the claim describes. -/
theorem C1_token_check_reversed :
    qrHandler ⟨none, none, none, some "Dupont", none, none⟩ [] [] []
      = .ok .people "Dupont" true
    ∧ qrHandler ⟨none, none, some "1", some "Dupont", none, none⟩
        [⟨"Jean", "Dupont"⟩] [] [] = .ok .people "Jean Dupont" true
    ∧ qrHandler ⟨none, none, none, some "Jean Pierre Dupont", none, none⟩ [] [] []
      = .badRequest nameFormatMsg
    ∧ chooseNameRejected "Dupont" = true
    ∧ chooseNameRejected "Jean Dupont" = false := by
  refine ⟨by decide, by decide, by decide, by decide, by decide⟩

/-- C2: the claim states the hidden attribute of the overlay text
element is absent exactly when a label exists.  The conditional of
src/server.ts line 211 emits the attribute exactly when the label is
truthy, so a resolved label is rendered hidden and the attribute is
absent when there is no label; the content slot is empty without a
label and the element is still well formed. -/
theorem C2_hidden_attribute_inverted :
    textSvgHiddenAttr (some "Jean Dupont") = "hidden"
    ∧ textSvgHiddenAttr none = ""
    ∧ textSvgTextContent none = ""
    ∧ textSvgTextElement (some "Jean Dupont")
      = "<text x=\"50%\" y=\"70%\" dominant-baseline=\"middle\" text-anchor=\"middle\" class=\"label\" hidden>Jean Dupont</text>" := by
  refine ⟨rfl, rfl, rfl, rfl⟩

/-- C3: the claim states that accents are stripped by decomposition
followed by combining-mark removal, so a precomposed input such as the
lower-case name elise-with-acute would come out accent free.  The code
never decomposes, so the precomposed letter (code point 233) survives
and is upper-cased to 201, an accented letter; the apostrophe-hyphen
example of the claim does hold. -/
theorem C3_accent_survives_precomposed_input :
    cleanPeopleNameJORFURL [233, 108, 105, 115, 101]
      = [201, 108, 105, 115, 101]
    ∧ 201 ∈ cleanPeopleNameJORFURL [233, 108, 105, 115, 101]
    ∧ cleanPeopleNameJORFURL
        [106, 101, 97, 110, 45, 112, 97, 117, 108, 32, 111, 39, 98, 114,
          105, 101, 110]
      = [74, 101, 97, 110, 45, 80, 97, 117, 108, 32, 79, 39, 66, 114, 105,
          101, 110] := by
  refine ⟨by decide, by decide, by decide⟩

/-- C4 counterexample: applying cleanPeopleNameJORFURL twice to the
two-character input open-parenthesis a changes the result, because the
parenthesis is removed only after the capitalisation pass, so the
letter moves to a capitalisation position on the second run. -/
theorem C4_counterexample :
    cleanPeopleNameJORFURL (cleanPeopleNameJORFURL [40, 97])
      ≠ cleanPeopleNameJORFURL [40, 97] := by decide

/-- C5: after a bare-string first answer with a non-empty resolved
location, callJORFSearchPeople issues exactly one follow-up request at
that location with the JSON format marker appended only when missing,
treats a null or string follow-up answer as the empty list, and never
issues more than two requests for any transport. -/
theorem C5_redirect_followed_exactly_once (name s ru : JStr) (t : Transport)
    (h1 : t.first = .ok (.str s)) (h2 : t.responseUrl = some ru)
    (h3 : ru ≠ []) :
    (callJORFSearchPeople name t).2 = [peopleQueryUrl name, followUpUrl ru]
    ∧ (t.second (followUpUrl ru) = .ok .null →
        (callJORFSearchPeople name t).1 = [])
    ∧ (∀ s2, t.second (followUpUrl ru) = .ok (.str s2) →
        (callJORFSearchPeople name t).1 = [])
    ∧ (∀ t2 : Transport, (callJORFSearchPeople name t2).2.length ≤ 2) := by
  refine ⟨?_, ?_, ?_, ?_⟩
  · rcases hs2 : t.second (followUpUrl ru) with e | b
    · simp [callJORFSearchPeople, h1, h2, h3, hs2]
    · rcases b with _ | s2 | l <;> simp [callJORFSearchPeople, h1, h2, h3, hs2]
  · intro hnull
    simp [callJORFSearchPeople, h1, h2, h3, hnull]
  · intro s2 hstr
    simp [callJORFSearchPeople, h1, h2, h3, hstr]
  · intro t2
    rcases t2 with ⟨f, ru2, sec⟩
    rcases f with e | b
    · simp [callJORFSearchPeople]
    · rcases b with _ | s2 | l
      · simp [callJORFSearchPeople]
      · rcases ru2 with _ | ru2
        · simp [callJORFSearchPeople]
        · by_cases hr : ru2 = []
          · simp [callJORFSearchPeople, hr]
          · rcases hs2 : sec (followUpUrl ru2) with e | b2
            · simp [callJORFSearchPeople, hr, hs2]
            · rcases b2 with _ | s3 | l2 <;>
                simp [callJORFSearchPeople, hr, hs2]
      · simp [callJORFSearchPeople]

/-- C6 counterexample: an item whose prenom field is present but the
empty string is kept by cleanJORFItems, while the claim requires both
name fields to be non-empty for an item to be kept. -/
theorem C6_counterexample :
    cleanJORFItems [{ prenom := some [], nom := some [88] }] ≠ [] := by decide

/-- C6 amended: cleanJORFItems keeps an item exactly when both name
fields are present (defined), without inspecting emptiness, dropping
offending items individually while returning the rest, so an item array
whose single element lacks the nom field normalises to the empty
list. -/
theorem C6_amended_presence_filter (raw : List JORFSearchItemRaw) :
    cleanJORFItems raw
      = raw.filterMap (fun raw_item =>
          match raw_item.nom, raw_item.prenom with
          | some n, some p => some { prenom := p, nom := n }
          | _, _ => none)
    ∧ cleanJORFItems [{ prenom := some [65], nom := none }] = [] := by
  constructor
  · unfold cleanJORFItems
    simpa using cleanJORFItems_foldl_eq raw []
  · decide

/-- C7 counterexample: the organisation-name entry point does not
convert a null body to the empty result list: the source returns the
parsed body unchanged, so the null passes through to the caller, where
the route then fails reading its length instead of answering the
no-result 400. -/
theorem C7_orgname_null_passthrough :
    callJORFSearchOrganisationName (jstr "q1") (.ok .null)
      ≠ .identities [] := by decide

/-- C7 amended: the person, tag and organisation-id entry points convert
every transport-level failure into the empty result list instead of an
exception: thrown failures (network error, non-2xx), null bodies, and
malformed bodies, which the transport delivers as bare strings (for the
person lookup a bare-string body is treated as a redirect marker: at
most one follow-up is issued, and a null or again-string final answer
yields the empty list).  The organisation-name entry point converts
only thrown failures to the empty identity list and passes null or
bare-string bodies through unchanged.  In the route, a mandatory
verification that comes back empty surfaces as the no-result 400
message. -/
theorem C7_amended_failure_tolerance (nm tg wid msA msB ms2 ru : JStr)
    (tv : Option JStr) (t tn ts tf : Transport) (q : QrQuery)
    (orr : List OrgIdentity) (tr : List PeopleItem)
    (h1 : t.first = .error ()) (h2 : tn.first = .ok .null)
    (h3 : ts.first = .ok (.str msA)) (h4 : ts.responseUrl = none)
    (h5 : tf.first = .ok (.str msB)) (h6 : tf.responseUrl = some ru)
    (h7 : ru ≠ []) (h8 : tf.second (followUpUrl ru) = .ok (.str ms2))
    (hsz : ¬(q.size ≠ none ∧ qrFrameFlag q.frame = true))
    (hname : (q.name.getD "").length > 0)
    (htok : ¬((jsSplitSpace (q.name.getD "")).length > 2))
    (horg : (q.organisation.getD "").length = 0)
    (htag : (q.function_tag.getD "").length = 0)
    (hver : qrVerifyFlag q.verify = true) :
    (callJORFSearchPeople nm t).1 = []
    ∧ (callJORFSearchPeople nm tn).1 = []
    ∧ (callJORFSearchPeople nm ts).1 = []
    ∧ (callJORFSearchPeople nm tf).1 = []
    ∧ callJORFSearchTag tg tv (.error ()) = []
    ∧ callJORFSearchTag tg tv (.ok .null) = []
    ∧ callJORFSearchTag tg tv (.ok (.str msA)) = []
    ∧ callJORFSearchOrganisation wid (.error ()) = []
    ∧ callJORFSearchOrganisation wid (.ok .null) = []
    ∧ callJORFSearchOrganisation wid (.ok (.str msA)) = []
    ∧ callJORFSearchOrganisationName wid (.error ()) = .identities []
    ∧ callJORFSearchOrganisationName wid (.ok .null) = .null
    ∧ (∀ s2, callJORFSearchOrganisationName wid (.ok (.str s2)) = .str s2)
    ∧ qrHandler q [] orr tr = .badRequest noResultMsg := by
  refine ⟨?_, ?_, ?_, ?_, rfl, rfl, rfl, rfl, rfl, rfl, rfl, rfl,
    fun s2 => rfl, ?_⟩
  · simp [callJORFSearchPeople, h1]
  · simp [callJORFSearchPeople, h2]
  · simp [callJORFSearchPeople, h3, h4]
  · simp [callJORFSearchPeople, h5, h6, h7, h8]
  · simp [qrHandler, hsz, hname, htok, horg, htag, hver]

/-- C8: in the organisation branch the index answer decides the outcome
for any value of the verify parameter: an empty answer yields the
no-result 400 message, two or more identities yield the too-many 400
message, and exactly one identity succeeds with that identity's name as
the label. -/
theorem C8_organisation_branch (q : QrQuery) (pr tr : List PeopleItem)
    (orr : List OrgIdentity)
    (hsz : ¬(q.size ≠ none ∧ qrFrameFlag q.frame = true))
    (hname : (q.name.getD "").length = 0)
    (htag : (q.function_tag.getD "").length = 0)
    (horg : (q.organisation.getD "").length > 0) :
    (orr = [] → qrHandler q pr orr tr = .badRequest noResultMsg)
    ∧ (∀ r rest, orr = r :: rest → rest ≠ [] →
        qrHandler q pr orr tr = .badRequest tooManyMsg)
    ∧ (∀ r, orr = [r] →
        qrHandler q pr orr tr = .ok .organisation r.name (qrFrameFlag q.frame)) := by
  refine ⟨?_, ?_, ?_⟩
  · intro h
    subst h
    simp [qrHandler, hsz, hname, htag, horg]
  · intro r rest h hne
    subst h
    rcases rest with _ | ⟨r2, rest2⟩
    · exact absurd rfl hne
    · simp [qrHandler, hsz, hname, htag, horg]
  · intro r h
    subst h
    simp [qrHandler, hsz, hname, htag, horg]

/-- C9 counterexample: a request carrying both a three-fragment name and
an organisation identifier fails with the name-format message, not with
the exclusivity message the claim requires for two non-empty
parameters, because the name-format guard runs first. -/
theorem C9_counterexample :
    qrHandler ⟨none, none, none, some "Jean Pierre Dupont", some "Q1", none⟩
        [] [] [] = .badRequest nameFormatMsg
    ∧ qrHandler ⟨none, none, none, some "Jean Pierre Dupont", some "Q1", none⟩
        [] [] [] ≠ .badRequest exclusiveMsg := by
  refine ⟨by decide, by decide⟩

/-- Number of non-empty values among the three selector parameters of a
qrcode request. -/
def qrNonEmptyCount (q : QrQuery) : Nat :=
  (if (q.name.getD "").length > 0 then 1 else 0) +
    (if (q.organisation.getD "").length > 0 then 1 else 0) +
    (if (q.function_tag.getD "").length > 0 then 1 else 0)

/-- C9 amended: among requests that pass the two earlier guards (no size
parameter while framing is enabled, and any non-empty name within the
split-length bound of the route), two or more non-empty selector
parameters fail with the exclusivity message, zero fail with the
missing-parameter message, and exactly one proceeds past the parameter
validation, never producing any of the four validation messages. -/
theorem C9_amended_exclusivity (q : QrQuery) (pr tr : List PeopleItem)
    (orr : List OrgIdentity)
    (hsz : ¬(q.size ≠ none ∧ qrFrameFlag q.frame = true))
    (hnm : (q.name.getD "").length > 0 →
      (jsSplitSpace (q.name.getD "")).length ≤ 2) :
    (2 ≤ qrNonEmptyCount q → qrHandler q pr orr tr = .badRequest exclusiveMsg)
    ∧ (qrNonEmptyCount q = 0 → qrHandler q pr orr tr = .badRequest missingMsg)
    ∧ (qrNonEmptyCount q = 1 →
        qrHandler q pr orr tr ≠ .badRequest exclusiveMsg
        ∧ qrHandler q pr orr tr ≠ .badRequest missingMsg
        ∧ qrHandler q pr orr tr ≠ .badRequest sizeFrameMsg
        ∧ qrHandler q pr orr tr ≠ .badRequest nameFormatMsg) := by
  have hname_tok : (q.name.getD "").length > 0 →
      ¬((jsSplitSpace (q.name.getD "")).length > 2) := by
    intro h
    have := hnm h
    omega
  by_cases hn : (q.name.getD "").length > 0 <;>
    by_cases ho : (q.organisation.getD "").length > 0 <;>
      by_cases ht : (q.function_tag.getD "").length > 0
  · exact ⟨fun _ => by simp [qrHandler, hsz, hn, ho, ht, hname_tok hn],
      fun hc => absurd hc (by simp [qrNonEmptyCount, hn, ho, ht]),
      fun hc => absurd hc (by simp [qrNonEmptyCount, hn, ho, ht])⟩
  · exact ⟨fun _ => by simp [qrHandler, hsz, hn, ho, ht, hname_tok hn],
      fun hc => absurd hc (by simp [qrNonEmptyCount, hn, ho, ht]),
      fun hc => absurd hc (by simp [qrNonEmptyCount, hn, ho, ht])⟩
  · exact ⟨fun _ => by simp [qrHandler, hsz, hn, ho, ht, hname_tok hn],
      fun hc => absurd hc (by simp [qrNonEmptyCount, hn, ho, ht]),
      fun hc => absurd hc (by simp [qrNonEmptyCount, hn, ho, ht])⟩
  · refine ⟨fun hc => absurd hc (by simp [qrNonEmptyCount, hn, ho, ht]),
      fun hc => absurd hc (by simp [qrNonEmptyCount, hn, ho, ht]),
      fun _ => ?_⟩
    have htok := hname_tok hn
    by_cases hv : qrVerifyFlag q.verify = true
    · rcases pr with _ | ⟨r, pr2⟩ <;>
        refine ⟨?_, ?_, ?_, ?_⟩ <;>
          simp [qrHandler, hsz, hn, ho, ht, htok, hv, noResultMsg,
            exclusiveMsg, missingMsg, sizeFrameMsg, nameFormatMsg]
    · refine ⟨?_, ?_, ?_, ?_⟩ <;>
        simp [qrHandler, hsz, hn, ho, ht, htok, hv]
  · exact ⟨fun _ => by simp [qrHandler, hsz, hn, ho, ht],
      fun hc => absurd hc (by simp [qrNonEmptyCount, hn, ho, ht]),
      fun hc => absurd hc (by simp [qrNonEmptyCount, hn, ho, ht])⟩
  · refine ⟨fun hc => absurd hc (by simp [qrNonEmptyCount, hn, ho, ht]),
      fun hc => absurd hc (by simp [qrNonEmptyCount, hn, ho, ht]),
      fun _ => ?_⟩
    rcases orr with _ | ⟨r, _ | ⟨r2, orr2⟩⟩ <;>
      refine ⟨?_, ?_, ?_, ?_⟩ <;>
        simp [qrHandler, hsz, hn, ho, ht, noResultMsg, tooManyMsg,
          exclusiveMsg, missingMsg, sizeFrameMsg, nameFormatMsg]
  · refine ⟨fun hc => absurd hc (by simp [qrNonEmptyCount, hn, ho, ht]),
      fun hc => absurd hc (by simp [qrNonEmptyCount, hn, ho, ht]),
      fun _ => ?_⟩
    by_cases hv : qrVerifyFlag q.verify = true
    · rcases tr with _ | ⟨r, tr2⟩ <;>
        refine ⟨?_, ?_, ?_, ?_⟩ <;>
          simp [qrHandler, hsz, hn, ho, ht, hv, noResultMsg,
            exclusiveMsg, missingMsg, sizeFrameMsg, nameFormatMsg]
    · refine ⟨?_, ?_, ?_, ?_⟩ <;>
        simp [qrHandler, hsz, hn, ho, ht, hv]
  · exact ⟨fun hc => absurd hc (by simp [qrNonEmptyCount, hn, ho, ht]),
      fun _ => by simp [qrHandler, hsz, hn, ho, ht],
      fun hc => absurd hc (by simp [qrNonEmptyCount, hn, ho, ht])⟩

/-- C10: parsing asymmetry of the two boolean query parameters of the
qrcode route: verify is enabled by any present non-empty value,
including the literal string false, while frame is disabled exactly by
the literal string false; a request with verify set to false therefore
performs the verification, shown here surfacing the no-result message
when the index answer is empty. -/
theorem C10_flag_parsing_asymmetry :
    (∀ v : String, qrVerifyFlag (some v) = true ↔ v ≠ "")
    ∧ qrVerifyFlag none = false
    ∧ (∀ f : String, qrFrameFlag (some f) = false ↔ f = "false")
    ∧ qrFrameFlag none = true
    ∧ qrVerifyFlag (some "false") = true
    ∧ qrFrameFlag (some "false") = false
    ∧ qrHandler ⟨none, none, some "false", some "Jean Dupont", none, none⟩
        [] [] [] = .badRequest noResultMsg := by
  refine ⟨?_, rfl, ?_, rfl, by decide, by decide, by decide⟩
  · intro v
    simp [qrVerifyFlag, jsBooleanString]
  · intro f
    by_cases h : f = "false" <;> simp [qrFrameFlag, h]

/-! ### Witnesses -/

/-- Transport example: a redirect-marker first answer with a resolved
location lacking the format marker, whose follow-up answers with a
second bare string. -/
def exRedirectTransport : Transport where
  first := .ok (.str (jstr "redirected"))
  responseUrl := some (jstr "https://jorfsearch.steinertriples.ch/name/Dupont%20Jean")
  second := fun _ => .ok (.str (jstr "redirected again"))

/-- Witness for C5 at a concrete transport: the two requests issued and
the empty final result. -/
theorem C5_redirect_followed_exactly_once_witness :
    (callJORFSearchPeople (jstr "dupont jean") exRedirectTransport).2
      = [peopleQueryUrl (jstr "dupont jean"),
        followUpUrl (jstr "https://jorfsearch.steinertriples.ch/name/Dupont%20Jean")]
    ∧ (callJORFSearchPeople (jstr "dupont jean") exRedirectTransport).1 = [] :=
  ⟨(C5_redirect_followed_exactly_once (jstr "dupont jean")
      (jstr "redirected")
      (jstr "https://jorfsearch.steinertriples.ch/name/Dupont%20Jean")
      exRedirectTransport rfl rfl (by decide)).1,
    (C5_redirect_followed_exactly_once (jstr "dupont jean")
      (jstr "redirected")
      (jstr "https://jorfsearch.steinertriples.ch/name/Dupont%20Jean")
      exRedirectTransport rfl rfl (by decide)).2.2.1
      (jstr "redirected again") rfl⟩

/-- Transport example: the first request raises a transport failure. -/
def exFailTransport : Transport where
  first := .error ()
  responseUrl := none
  second := fun _ => .error ()

/-- Transport example: the first request delivers a null body. -/
def exNullTransport : Transport where
  first := .ok .null
  responseUrl := none
  second := fun _ => .ok .null

/-- Transport example: the first request delivers a malformed body,
surfaced by the transport as a bare string, with no resolved
location. -/
def exMalformedTransport : Transport where
  first := .ok (.str (jstr "not json"))
  responseUrl := none
  second := fun _ => .error ()

/-- Witness for the amended C7 at concrete inputs: a failed transport
and a malformed-body transport yield the empty list for the people
lookup, a null body passes through the organisation-name lookup
unchanged, and a verified person request with the empty index answer
yields the no-result message. -/
theorem C7_amended_failure_tolerance_witness :
    (callJORFSearchPeople (jstr "jean dupont") exFailTransport).1 = []
    ∧ (callJORFSearchPeople (jstr "jean dupont") exMalformedTransport).1 = []
    ∧ callJORFSearchOrganisationName (jstr "q1") (.ok .null) = .null
    ∧ qrHandler ⟨none, none, some "1", some "Jean Dupont", none, none⟩ [] [] []
      = .badRequest noResultMsg := by
  have h := C7_amended_failure_tolerance (jstr "jean dupont") (jstr "prefet")
    (jstr "q1") (jstr "not json") (jstr "redirected")
    (jstr "redirected again")
    (jstr "https://jorfsearch.steinertriples.ch/name/Dupont%20Jean") none
    exFailTransport exNullTransport exMalformedTransport exRedirectTransport
    ⟨none, none, some "1", some "Jean Dupont", none, none⟩ [] []
    rfl rfl rfl rfl rfl rfl (by decide) rfl (by decide) (by decide)
    (by decide) (by decide) (by decide) (by decide)
  exact ⟨h.1, h.2.2.1, h.2.2.2.2.2.2.2.2.2.2.2.1,
    h.2.2.2.2.2.2.2.2.2.2.2.2.2⟩

/-- Witness for C8 at concrete inputs: with the verify parameter set to
the string false, a two-identity index answer yields the too-many
message and a one-identity answer succeeds with that identity's name as
the label. -/
theorem C8_organisation_branch_witness :
    qrHandler ⟨none, none, some "false", none, some "Q1", none⟩ []
        [⟨"Conseil d Etat", "Q1"⟩, ⟨"Conseil constitutionnel", "Q1"⟩] []
      = .badRequest tooManyMsg
    ∧ qrHandler ⟨none, none, some "false", none, some "Q1", none⟩ []
        [⟨"Conseil d Etat", "Q1"⟩] []
      = .ok .organisation "Conseil d Etat" true :=
  ⟨(C8_organisation_branch ⟨none, none, some "false", none, some "Q1", none⟩
      [] [] [⟨"Conseil d Etat", "Q1"⟩, ⟨"Conseil constitutionnel", "Q1"⟩]
      (by decide) (by decide) (by decide) (by decide)).2.1
      ⟨"Conseil d Etat", "Q1"⟩ [⟨"Conseil constitutionnel", "Q1"⟩] rfl
      (by decide),
    (C8_organisation_branch ⟨none, none, some "false", none, some "Q1", none⟩
      [] [] [⟨"Conseil d Etat", "Q1"⟩]
      (by decide) (by decide) (by decide) (by decide)).2.2
      ⟨"Conseil d Etat", "Q1"⟩ rfl⟩

/-- Witness for C9 amended at concrete inputs: two non-empty selector
parameters produce the exclusivity message and none produces the
missing-parameter message. -/
theorem C9_amended_exclusivity_witness :
    qrHandler ⟨none, none, none, some "Jean Dupont", some "Q1", none⟩ [] [] []
      = .badRequest exclusiveMsg
    ∧ qrHandler ⟨none, none, none, none, none, none⟩ [] [] []
      = .badRequest missingMsg :=
  ⟨(C9_amended_exclusivity ⟨none, none, none, some "Jean Dupont", some "Q1", none⟩
      [] [] [] (by decide) (fun _ => by decide)).1 (by decide),
    (C9_amended_exclusivity ⟨none, none, none, none, none, none⟩
      [] [] [] (by decide) (fun h => absurd h (by decide))).2.1 (by decide)⟩

/-! ### Idempotence of the name normalizer on parenthesis-free ASCII input -/

/-- The single-character restriction of the JavaScript toLowerCase to
code points below 128. -/
def lcA (c : Nat) : Nat := if 65 ≤ c ∧ c ≤ 90 then c + 32 else c

/-- The single-character restriction of the JavaScript toUpperCase to
code points below 128. -/
def ucA (c : Nat) : Nat := if 97 ≤ c ∧ c ≤ 122 then c - 32 else c

/-- Inputs every code point of which is ASCII and not a parenthesis. -/
abbrev SafeAscii (s : JStr) : Prop := ∀ c ∈ s, c < 128 ∧ c ≠ 40 ∧ c ≠ 41

/-- Cons equation of trimEnd. -/
theorem trimEnd_cons (c : Nat) (r : JStr) :
    trimEnd (c :: r)
      = if trimEnd r = [] ∧ isJsWs c = true then [] else c :: trimEnd r := rfl

/-- On ASCII code points the lower-case map is the single character
lcA. -/
theorem jsLowerChar_ascii (c : Nat) (h : c < 128) : jsLowerChar c = [lcA c] := by
  by_cases h1 : 65 ≤ c ∧ c ≤ 90
  · simp [jsLowerChar, lcA, h1]
  · have h2 : ¬(0xC0 ≤ c ∧ c ≤ 0xDE ∧ c ≠ 0xD7) := by omega
    have h3 : c ≠ 0x130 := by omega
    simp [jsLowerChar, lcA, h1, h2, h3]

/-- On ASCII code points the upper-case map is the single character
ucA. -/
theorem jsUpperChar_ascii (c : Nat) (h : c < 128) : jsUpperChar c = [ucA c] := by
  by_cases h1 : 97 ≤ c ∧ c ≤ 122
  · simp [jsUpperChar, ucA, h1]
  · have h2 : c ≠ 0xDF := by omega
    have h3 : ¬(0xE0 ≤ c ∧ c ≤ 0xFE ∧ c ≠ 0xF7) := by omega
    have h4 : c ≠ 0xFF := by omega
    simp [jsUpperChar, ucA, h1, h2, h3, h4]

/-- The ASCII lower-case map is idempotent. -/
theorem lcA_idem (c : Nat) : lcA (lcA c) = lcA c := by
  unfold lcA
  split_ifs <;> omega

/-- The ASCII lower-case map stays below 128. -/
theorem lcA_lt_128 (c : Nat) (h : c < 128) : lcA c < 128 := by
  unfold lcA
  split_ifs <;> omega

/-- The ASCII upper-case map stays below 128. -/
theorem ucA_lt_128 (c : Nat) (h : c < 128) : ucA c < 128 := by
  unfold ucA
  split_ifs <;> omega

/-- SafeAscii code points stay safe under the upper-case map. -/
theorem ucA_safe (c : Nat) (h : c < 128) (h40 : c ≠ 40) (h41 : c ≠ 41) :
    ucA c < 128 ∧ ucA c ≠ 40 ∧ ucA c ≠ 41 := by
  unfold ucA
  split_ifs <;> omega

/-- SafeAscii code points stay safe under the lower-case map. -/
theorem lcA_safe (c : Nat) (h : c < 128) (h40 : c ≠ 40) (h41 : c ≠ 41) :
    lcA c < 128 ∧ lcA c ≠ 40 ∧ lcA c ≠ 41 := by
  unfold lcA
  split_ifs <;> omega

/-- Printable ASCII code points are not JavaScript whitespace. -/
theorem isJsWs_false_of_range (c : Nat) (h1 : 33 ≤ c) (h2 : c ≤ 126) :
    isJsWs c = false := by
  unfold isJsWs
  split_ifs with h
  · omega
  · rfl

/-- Whitespace is invariant under the ASCII lower-case map. -/
theorem isJsWs_lcA (c : Nat) : isJsWs (lcA c) = isJsWs c := by
  unfold lcA
  split_ifs with h
  · rw [isJsWs_false_of_range (c + 32) (by omega) (by omega),
      isJsWs_false_of_range c (by omega) (by omega)]
  · rfl

/-- Whitespace is invariant under the ASCII upper-case map. -/
theorem isJsWs_ucA (c : Nat) : isJsWs (ucA c) = isJsWs c := by
  unfold ucA
  split_ifs with h
  · rw [isJsWs_false_of_range (c - 32) (by omega) (by omega),
      isJsWs_false_of_range c (by omega) (by omega)]
  · rfl

/-- Characterisation of the letter class below 128. -/
theorem isJsLetter_ascii (c : Nat) (h : c < 128) :
    isJsLetter c = true ↔ (65 ≤ c ∧ c ≤ 90) ∨ (97 ≤ c ∧ c ≤ 122) := by
  unfold isJsLetter
  split_ifs with hl
  · simp only [true_iff]
    omega
  · simp only [false_iff]
    omega

/-- Lower-casing a string of ASCII code points maps lcA over it. -/
theorem jsToLowerCase_ascii (s : JStr) (h : ∀ c ∈ s, c < 128) :
    jsToLowerCase s = s.map lcA := by
  induction s with
  | nil => rfl
  | cons c r ih =>
    simp only [jsToLowerCase, List.map_cons]
    rw [jsLowerChar_ascii c (h c (by simp)),
      ih (fun d hd => h d (by simp [hd]))]
    rfl

/-- ASCII strings contain no combining marks. -/
theorem removeCombining_ascii (s : JStr) (h : ∀ c ∈ s, c < 128) :
    removeCombining s = s := by
  unfold removeCombining
  rw [List.filter_eq_self]
  intro c hc
  have hlt := h c hc
  have hm : isCombiningMark c = false := by
    unfold isCombiningMark
    split_ifs with hx
    · omega
    · rfl
  simp [hm]

/-- Parenthesis removal is the identity on SafeAscii strings. -/
theorem removeParens_safe (s : JStr) (h : SafeAscii s) : removeParens s = s := by
  unfold removeParens
  rw [List.filter_eq_self]
  intro c hc
  have h40 := (h c hc).2.1
  have h41 := (h c hc).2.2
  simp [h40, h41]

/-- Members of the trailing-trim are members of the original list. -/
theorem mem_trimEnd (s : JStr) (c : Nat) (h : c ∈ trimEnd s) : c ∈ s := by
  induction s with
  | nil => exact h
  | cons d r ih =>
    rw [trimEnd_cons] at h
    by_cases hcnd : trimEnd r = [] ∧ isJsWs d = true
    · rw [if_pos hcnd] at h
      simp at h
    · rw [if_neg hcnd] at h
      rcases List.mem_cons.mp h with h1 | h2
      · simp [h1]
      · simp [ih h2]

/-- Members of the leading-drop are members of the original list. -/
theorem mem_dropWhile (p : Nat → Bool) (s : JStr) (c : Nat)
    (h : c ∈ s.dropWhile p) : c ∈ s :=
  List.Sublist.mem h (List.dropWhile_sublist p)

/-- Trimming preserves SafeAscii. -/
theorem SafeAscii_trim (s : JStr) (h : SafeAscii s) : SafeAscii (jsTrim s) :=
  fun c hc => h c (mem_dropWhile _ _ _ (mem_trimEnd _ _ hc))

/-- Mapping lcA preserves SafeAscii. -/
theorem SafeAscii_map_lcA (s : JStr) (h : SafeAscii s) :
    SafeAscii (s.map lcA) := by
  intro c hc
  rcases List.mem_map.mp hc with ⟨d, hd, rfl⟩
  exact lcA_safe d (h d hd).1 (h d hd).2.1 (h d hd).2.2

/-- Head shape of the capitalisation pass on an ASCII head. -/
theorem capitalizeJORF_cons_ascii (b : Bool) (c : Nat) (r : JStr)
    (h : c < 128) :
    capitalizeJORF b (c :: r)
      = (if (b && isJsLetter c) = true then ucA c else c) ::
        capitalizeJORF (isCapDelim c) r := by
  simp only [capitalizeJORF]
  by_cases hb : (b && isJsLetter c) = true
  · rw [if_pos hb, if_pos hb, jsUpperChar_ascii c h]
    rfl
  · rw [if_neg hb, if_neg hb]
    rfl

/-- The capitalisation pass preserves SafeAscii. -/
theorem SafeAscii_capitalize (u : JStr) (h : SafeAscii u) (b : Bool) :
    SafeAscii (capitalizeJORF b u) := by
  induction u generalizing b with
  | nil =>
    intro c hc
    simp [capitalizeJORF] at hc
  | cons d r ih =>
    intro c hc
    have hd := h d (by simp)
    rw [capitalizeJORF_cons_ascii b d r hd.1] at hc
    rcases List.mem_cons.mp hc with h1 | h2
    · subst h1
      by_cases hb : (b && isJsLetter d) = true
      · rw [if_pos hb]
        exact ucA_safe d hd.1 hd.2.1 hd.2.2
      · rw [if_neg hb]
        exact hd
    · exact ih (fun e he => h e (by simp [he])) (isCapDelim d) c h2

/-- Lower-casing undoes the capitalisation pass on strings whose code
points are ASCII fixed points of the lower-case map. -/
theorem jsToLowerCase_capitalize (u : JStr)
    (h : ∀ c ∈ u, c < 128 ∧ lcA c = c) (b : Bool) :
    jsToLowerCase (capitalizeJORF b u) = u := by
  induction u generalizing b with
  | nil => rfl
  | cons c r ih =>
    have hc := h c (by simp)
    rw [capitalizeJORF_cons_ascii b c r hc.1]
    by_cases hb : (b && isJsLetter c) = true
    · rw [if_pos hb]
      simp only [jsToLowerCase]
      rw [jsLowerChar_ascii (ucA c) (ucA_lt_128 c hc.1),
        ih (fun d hd => h d (by simp [hd])) (isCapDelim c)]
      have hb2 : isJsLetter c = true := by
        simp only [Bool.and_eq_true] at hb
        exact hb.2
      have hlet : (65 ≤ c ∧ c ≤ 90) ∨ (97 ≤ c ∧ c ≤ 122) :=
        (isJsLetter_ascii c hc.1).mp hb2
      have hfix := hc.2
      have hlu : lcA (ucA c) = c := by
        unfold lcA at hfix ⊢
        unfold ucA
        split_ifs at * <;> omega
      rw [hlu, List.singleton_append]
    · rw [if_neg hb]
      simp only [jsToLowerCase]
      rw [jsLowerChar_ascii c hc.1,
        ih (fun d hd => h d (by simp [hd])) (isCapDelim c), hc.2,
        List.singleton_append]

/-- The trailing trim is idempotent. -/
theorem trimEnd_idem (s : JStr) : trimEnd (trimEnd s) = trimEnd s := by
  induction s with
  | nil => rfl
  | cons c r ih =>
    rw [trimEnd_cons]
    by_cases hcnd : trimEnd r = [] ∧ isJsWs c = true
    · rw [if_pos hcnd]
      rfl
    · rw [if_neg hcnd, trimEnd_cons, ih, if_neg hcnd]

/-- The head of a list fixed by the leading-drop fails the predicate. -/
theorem dropWhile_cons_self_head (p : Nat → Bool) (c : Nat) (r : JStr)
    (h : (c :: r).dropWhile p = c :: r) : p c = false := by
  by_cases hp : p c = true
  · rw [List.dropWhile_cons_of_pos hp] at h
    have hle := List.Sublist.length_le (List.dropWhile_sublist p (l := r))
    rw [h] at hle
    simp only [List.length_cons] at hle
    omega
  · simpa using hp

/-- The trailing trim of a list fixed by the leading-drop stays fixed by
the leading-drop. -/
theorem dropWhile_trimEnd (l : JStr) (h : l.dropWhile isJsWs = l) :
    (trimEnd l).dropWhile isJsWs = trimEnd l := by
  cases l with
  | nil => rfl
  | cons c r =>
    have hc : isJsWs c = false := dropWhile_cons_self_head _ c r h
    rw [trimEnd_cons]
    by_cases hcnd : trimEnd r = [] ∧ isJsWs c = true
    · rw [if_pos hcnd]
      rfl
    · rw [if_neg hcnd]
      exact List.dropWhile_cons_of_neg (by simp [hc])

/-- The full trim is fixed by the leading-drop. -/
theorem jsTrim_dropWhile_self (s : JStr) :
    (jsTrim s).dropWhile isJsWs = jsTrim s := by
  unfold jsTrim
  exact dropWhile_trimEnd _ (List.dropWhile_idempotent isJsWs s)

/-- The full trim is fixed by the trailing trim. -/
theorem jsTrim_trimEnd_self (s : JStr) : trimEnd (jsTrim s) = jsTrim s := by
  unfold jsTrim
  exact trimEnd_idem _

/-- The leading-drop commutes with mapping the lower-case map. -/
theorem dropWhile_map_lcA (l : JStr) :
    (l.map lcA).dropWhile isJsWs = (l.dropWhile isJsWs).map lcA := by
  induction l with
  | nil => rfl
  | cons c r ih =>
    by_cases hc : isJsWs c = true
    · rw [List.map_cons, List.dropWhile_cons_of_pos (by rw [isJsWs_lcA]; exact hc),
        List.dropWhile_cons_of_pos hc, ih]
    · rw [List.map_cons, List.dropWhile_cons_of_neg (by rw [isJsWs_lcA]; exact hc),
        List.dropWhile_cons_of_neg hc, List.map_cons]

/-- The trailing trim commutes with mapping the lower-case map. -/
theorem trimEnd_map_lcA (l : JStr) :
    trimEnd (l.map lcA) = (trimEnd l).map lcA := by
  induction l with
  | nil => rfl
  | cons c r ih =>
    rw [List.map_cons, trimEnd_cons, trimEnd_cons, ih]
    have hiff : (List.map lcA (trimEnd r) = [] ∧ isJsWs (lcA c) = true)
        ↔ (trimEnd r = [] ∧ isJsWs c = true) := by
      rw [List.map_eq_nil_iff, isJsWs_lcA]
    by_cases hcnd : trimEnd r = [] ∧ isJsWs c = true
    · rw [if_pos (hiff.mpr hcnd), if_pos hcnd]
      rfl
    · rw [if_neg (fun hx => hcnd (hiff.mp hx)), if_neg hcnd, List.map_cons]

/-- The capitalisation pass preserves being fixed by the leading
drop. -/
theorem dropWhile_capitalize (u : JStr) (hu : ∀ c ∈ u, c < 128)
    (h : u.dropWhile isJsWs = u) (b : Bool) :
    (capitalizeJORF b u).dropWhile isJsWs = capitalizeJORF b u := by
  cases u with
  | nil => rfl
  | cons c r =>
    have hc : isJsWs c = false := dropWhile_cons_self_head _ c r h
    rw [capitalizeJORF_cons_ascii b c r (hu c (by simp))]
    apply List.dropWhile_cons_of_neg
    by_cases hb : (b && isJsLetter c) = true
    · rw [if_pos hb, isJsWs_ucA]
      simp [hc]
    · rw [if_neg hb]
      simp [hc]

/-- The capitalisation pass preserves being fixed by the trailing
trim. -/
theorem trimEnd_capitalize (u : JStr) (hu : ∀ c ∈ u, c < 128)
    (h : trimEnd u = u) (b : Bool) :
    trimEnd (capitalizeJORF b u) = capitalizeJORF b u := by
  induction u generalizing b with
  | nil => rfl
  | cons c r ih =>
    by_cases hcnd : trimEnd r = [] ∧ isJsWs c = true
    · exfalso
      rw [trimEnd_cons, if_pos hcnd] at h
      exact List.cons_ne_nil c r h.symm
    · rw [trimEnd_cons, if_neg hcnd] at h
      have hr : trimEnd r = r := by
        injection h
      rw [capitalizeJORF_cons_ascii b c r (hu c (by simp)), trimEnd_cons,
        ih (fun d hd => hu d (by simp [hd])) hr (isCapDelim c)]
      have hne : ¬(capitalizeJORF (isCapDelim c) r = [] ∧
          isJsWs (if (b && isJsLetter c) = true then ucA c else c) = true) := by
        rintro ⟨hnil, hws⟩
        have hwsc : isJsWs c = true := by
          by_cases hb : (b && isJsLetter c) = true
          · rw [if_pos hb, isJsWs_ucA] at hws
            exact hws
          · rw [if_neg hb] at hws
            exact hws
        have hrnil : r = [] := by
          cases r with
          | nil => rfl
          | cons d r2 =>
            rw [capitalizeJORF_cons_ascii _ d r2 (hu d (by simp))] at hnil
            exact absurd hnil (List.cons_ne_nil _ _)
        exact hcnd ⟨by rw [hrnil]; rfl, hwsc⟩
      rw [if_neg hne]

/-- C4 amended: cleanPeopleNameJORFURL is idempotent on every input all
of whose code points are ASCII and none of which is a parenthesis; the
parenthesis restriction is forced by the counterexample, where the
removal of a parenthesis after the capitalisation pass moves a letter
to a capitalisation position for the second run. -/
theorem C4_amended_idempotent_on_safe_ascii (s : JStr) (h : SafeAscii s) :
    cleanPeopleNameJORFURL (cleanPeopleNameJORFURL s)
      = cleanPeopleNameJORFURL s := by
  by_cases hs : s = []
  · subst hs
    rfl
  · have ht_safe : SafeAscii (jsTrim s) := SafeAscii_trim s h
    have ht_ascii : ∀ c ∈ jsTrim s, c < 128 := fun c hc => (ht_safe c hc).1
    have hu_safe : SafeAscii ((jsTrim s).map lcA) := SafeAscii_map_lcA _ ht_safe
    have hu_ascii : ∀ c ∈ (jsTrim s).map lcA, c < 128 :=
      fun c hc => (hu_safe c hc).1
    have hu_fix : ∀ c ∈ (jsTrim s).map lcA, c < 128 ∧ lcA c = c := by
      intro c hc
      rcases List.mem_map.mp hc with ⟨d, hd, rfl⟩
      exact ⟨lcA_lt_128 d (ht_ascii d hd), lcA_idem d⟩
    have hv_safe : SafeAscii (capitalizeJORF true ((jsTrim s).map lcA)) :=
      SafeAscii_capitalize _ hu_safe true
    have hfs : cleanPeopleNameJORFURL s
        = capitalizeJORF true ((jsTrim s).map lcA) := by
      simp only [cleanPeopleNameJORFURL, if_neg hs]
      rw [jsToLowerCase_ascii _ ht_ascii, removeCombining_ascii _ hu_ascii,
        removeParens_safe _ hv_safe]
    rw [hfs]
    by_cases hv : capitalizeJORF true ((jsTrim s).map lcA) = []
    · rw [hv]
      rfl
    · have hdwu : ((jsTrim s).map lcA).dropWhile isJsWs = (jsTrim s).map lcA := by
        rw [dropWhile_map_lcA, jsTrim_dropWhile_self]
      have hteu : trimEnd ((jsTrim s).map lcA) = (jsTrim s).map lcA := by
        rw [trimEnd_map_lcA, jsTrim_trimEnd_self]
      have htrv : jsTrim (capitalizeJORF true ((jsTrim s).map lcA))
          = capitalizeJORF true ((jsTrim s).map lcA) := by
        show trimEnd
            (List.dropWhile isJsWs (capitalizeJORF true ((jsTrim s).map lcA)))
          = capitalizeJORF true ((jsTrim s).map lcA)
        rw [dropWhile_capitalize _ hu_ascii hdwu true]
        exact trimEnd_capitalize _ hu_ascii hteu true
      have hlv : jsToLowerCase (capitalizeJORF true ((jsTrim s).map lcA))
          = (jsTrim s).map lcA :=
        jsToLowerCase_capitalize _ hu_fix true
      simp only [cleanPeopleNameJORFURL, if_neg hv]
      rw [htrv, hlv, removeCombining_ascii _ hu_ascii,
        removeParens_safe _ hv_safe]

/-- Witness for the amended C4 at the concrete input jean-paul dupont
in code points. -/
theorem C4_amended_idempotent_on_safe_ascii_witness :
    cleanPeopleNameJORFURL (cleanPeopleNameJORFURL
        [106, 101, 97, 110, 45, 112, 97, 117, 108, 32, 100, 117, 112, 111,
          110, 116])
      = cleanPeopleNameJORFURL
        [106, 101, 97, 110, 45, 112, 97, 117, 108, 32, 100, 117, 112, 111,
          110, 116] :=
  C4_amended_idempotent_on_safe_ascii _ (by decide)
